import Mathlib

/-!
Verification of the WebSocket gateway / room-broadcast routing layer of the
mtpx-framework-examples repository, as given by the reference implementation
sketches in `mtpx-websocket-chat/WEBSOCKET-LINKD-IMPLEMENTATION.md`
(Rust: `RoomManager`, `ConnectionManager`, `MessageRouter`, `WebSocketConfig`)
and the SDK code quoted in `mtpx-websocket-chat/WEBSOCKET-CODE-ANALYSIS.md`
(TypeScript: `WebSocketManager.on`, `handleInboundMessage`).

Hash maps (`DashMap`, JS `Map`) are embedded as functions into `Option` or as
association lists with replace-or-append insertion; `HashSet` member sets are
embedded as duplicate-free lists (the set structure makes freedom from
duplicates intrinsic, as a hash set does). Opaque callbacks (the registered
handler and middleware functions) are embedded as behaviour records: whether
they throw, whether a middleware invokes its continuation, and how long the
handler's asynchronous work takes in milliseconds.
-/

namespace WsGateway

abbrev ConnId := String
abbrev RoomId := String

/-- Embedding of Rust `HashSet<String>`: a list of connection ids without
duplicates, as the hash-set structure guarantees. -/
def ConnSet := {l : List ConnId // l.Nodup}

instance : DecidableEq ConnSet := Subtype.instDecidableEq

def ConnSet.empty : ConnSet := ⟨[], List.nodup_nil⟩

/-- Embedding of `HashSet::insert`: adds the element when absent. -/
def ConnSet.insert (c : ConnId) (s : ConnSet) : ConnSet :=
  if h : c ∈ s.val then s else ⟨c :: s.val, List.nodup_cons.mpr ⟨h, s.property⟩⟩

/-- Embedding of `HashSet::remove`. -/
def ConnSet.erase (c : ConnId) (s : ConnSet) : ConnSet :=
  ⟨s.val.erase c, s.property.erase c⟩

/-- Embedding of `RoomManager` (WEBSOCKET-LINKD-IMPLEMENTATION.md, room_manager.rs):
`rooms: Arc<DashMap<String, HashSet<String>>>`, a map room_id -> member set.
The concurrent map is embedded as a function into `Option` (absent key =
`none`); `DashMap` keys are unique by construction. -/
structure RoomManager where
  rooms : RoomId → Option ConnSet

def RoomManager.empty : RoomManager := ⟨fun _ => none⟩

/-- Embedding of `RoomManager::join`:
`self.rooms.entry(room).or_insert_with(HashSet::new).insert(conn_id)`. -/
def RoomManager.join (rm : RoomManager) (conn_id : ConnId) (room : RoomId) : RoomManager :=
  ⟨fun r =>
    if r = room then some (ConnSet.insert conn_id ((rm.rooms room).getD ConnSet.empty))
    else rm.rooms r⟩

/-- Embedding of `RoomManager::leave`: remove the member from the room's set
when the room exists; when the set becomes empty, remove the room entry. -/
def RoomManager.leave (rm : RoomManager) (conn_id : ConnId) (room : RoomId) : RoomManager :=
  match rm.rooms room with
  | none => rm
  | some members =>
      let members' := ConnSet.erase conn_id members
      if members'.val.isEmpty then
        ⟨fun r => if r = room then none else rm.rooms r⟩
      else
        ⟨fun r => if r = room then some members' else rm.rooms r⟩

/-- Embedding of `RoomManager::get_members`: the member set of the room, or
the empty collection when the room does not exist (`unwrap_or_default`). -/
def RoomManager.get_members (rm : RoomManager) (room : RoomId) : List ConnId :=
  ((rm.rooms room).map Subtype.val).getD []

/-- Embedding of membership in the result of `RoomManager::get_rooms_for_connection`,
which scans the single `rooms` map and keeps the keys whose member set contains
the connection id: `room` is in the scan result exactly when the entry stored at
`room` contains `conn_id`. -/
def RoomManager.roomsForConnectionContains (rm : RoomManager) (conn_id : ConnId) (room : RoomId) : Bool :=
  match rm.rooms room with
  | some members => decide (conn_id ∈ members.val)
  | none => false

/-- States of the room index reachable through its exposed operations. -/
inductive RoomManager.Reachable : RoomManager → Prop where
  | empty : RoomManager.Reachable RoomManager.empty
  | join : ∀ {rm : RoomManager} (c : ConnId) (r : RoomId),
      RoomManager.Reachable rm → RoomManager.Reachable (rm.join c r)
  | leave : ∀ {rm : RoomManager} (c : ConnId) (r : RoomId),
      RoomManager.Reachable rm → RoomManager.Reachable (rm.leave c r)

theorem ConnSet.mem_insert_self (c : ConnId) (s : ConnSet) : c ∈ (ConnSet.insert c s).val := by
  unfold ConnSet.insert
  split
  · assumption
  · exact List.mem_cons_self c s.val

theorem ConnSet.insert_val_ne_nil (c : ConnId) (s : ConnSet) : (ConnSet.insert c s).val ≠ [] := by
  unfold ConnSet.insert
  split
  · intro hnil
    rename_i h
    rw [hnil] at h
    exact absurd h (List.not_mem_nil c)
  · simp

theorem ConnSet.not_mem_erase_self (c : ConnId) (s : ConnSet) : c ∉ (ConnSet.erase c s).val := by
  intro h
  have := (s.property.mem_erase_iff).mp h
  exact this.1 rfl

/-- In every reachable state, a room entry that exists has a nonempty member
set (helper for the empty-room-deletion invariant). -/
theorem RoomManager.reachable_no_empty_entry {rm : RoomManager} (h : rm.Reachable) :
    ∀ r s, rm.rooms r = some s → s.val ≠ [] := by
  induction h with
  | empty =>
      intro r s hs
      simp [RoomManager.empty] at hs
  | join c r' _ ih =>
      intro r s hs
      simp only [RoomManager.join] at hs
      by_cases hr : r = r'
      · simp only [hr, if_pos rfl] at hs
        cases hs
        exact ConnSet.insert_val_ne_nil _ _
      · simp only [if_neg hr] at hs
        exact ih r s hs
  | @leave rm' c r' _ ih =>
      intro r s hs
      simp only [RoomManager.leave] at hs
      cases hm : rm'.rooms r' with
      | none =>
          rw [hm] at hs
          exact ih r s hs
      | some members =>
          rw [hm] at hs
          simp only at hs
          by_cases he : (ConnSet.erase c members).val.isEmpty
          · rw [if_pos he] at hs
            by_cases hr : r = r'
            · subst hr
              simp at hs
            · simp only [if_neg hr] at hs
              exact ih r s hs
          · rw [if_neg he] at hs
            by_cases hr : r = r'
            · simp only [hr, if_pos rfl] at hs
              cases hs
              intro hnil
              rw [List.isEmpty_iff] at he
              exact he hnil
            · simp only [if_neg hr] at hs
              exact ih r s hs

end WsGateway

namespace WsGateway

/-- C3: for every connection C and room R, once `join(C,R)` has completed,
R is among C's rooms and C is among R's members; and once `leave(C,R)` has
completed, R is not among C's rooms and C is not among R's members. -/
theorem join_leave_postconditions (rm : RoomManager) (c : ConnId) (r : RoomId) :
    ((rm.join c r).roomsForConnectionContains c r = true ∧ c ∈ (rm.join c r).get_members r)
    ∧ ((rm.leave c r).roomsForConnectionContains c r = false ∧ c ∉ (rm.leave c r).get_members r) := by
  constructor
  · have hrooms : (rm.join c r).rooms r
        = some (ConnSet.insert c ((rm.rooms r).getD ConnSet.empty)) := by
      simp [RoomManager.join]
    constructor
    · simp [RoomManager.roomsForConnectionContains, hrooms, ConnSet.mem_insert_self]
    · simp [RoomManager.get_members, hrooms, ConnSet.mem_insert_self]
  · cases hm : rm.rooms r with
    | none =>
        have hrooms : (rm.leave c r).rooms r = none := by
          simp [RoomManager.leave, hm]
        constructor
        · simp [RoomManager.roomsForConnectionContains, hrooms]
        · simp [RoomManager.get_members, hrooms]
    | some members =>
        by_cases he : (ConnSet.erase c members).val.isEmpty
        · have hrooms : (rm.leave c r).rooms r = none := by
            simp [RoomManager.leave, hm, he]
          constructor
          · simp [RoomManager.roomsForConnectionContains, hrooms]
          · simp [RoomManager.get_members, hrooms]
        · have hrooms : (rm.leave c r).rooms r = some (ConnSet.erase c members) := by
            simp [RoomManager.leave, hm, he]
          constructor
          · simp [RoomManager.roomsForConnectionContains, hrooms,
              ConnSet.not_mem_erase_self]
          · simp [RoomManager.get_members, hrooms]
            exact ConnSet.not_mem_erase_self c members

/-- C10: in every state of the room index, the forward and reverse views
agree: a room is in the scan-computed room list of a connection exactly when
the connection is in the room's member list — both are read off the single
roomId-to-members map. -/
theorem room_views_agree (rm : RoomManager) (c : ConnId) (r : RoomId) :
    rm.roomsForConnectionContains c r = true ↔ c ∈ rm.get_members r := by
  cases hm : rm.rooms r with
  | none => simp [RoomManager.roomsForConnectionContains, RoomManager.get_members, hm]
  | some members => simp [RoomManager.roomsForConnectionContains, RoomManager.get_members, hm]

/-- C5: in every reachable state of the room index, a room whose membership
is empty has no entry (it was deleted when emptied), `get_members` on such a
nonexistent or emptied room returns the empty set (it is total, never an
error), and a join/leave cycle on an absent room leaves no residual entry. -/
theorem empty_room_entry_deleted (rm : RoomManager) (h : rm.Reachable) (r : RoomId) (c : ConnId)
    (hempty : rm.get_members r = []) :
    rm.rooms r = none ∧ rm.get_members r = []
    ∧ ((rm.join c r).leave c r).rooms r = none := by
  have hnone : rm.rooms r = none := by
    cases hm : rm.rooms r with
    | none => rfl
    | some members =>
        exfalso
        apply RoomManager.reachable_no_empty_entry h r members hm
        simpa [RoomManager.get_members, hm] using hempty
  refine ⟨hnone, hempty, ?_⟩
  have hjoin : (rm.join c r).rooms r = some (ConnSet.insert c ConnSet.empty) := by
    simp [RoomManager.join, hnone]
  have hval : (ConnSet.insert c ConnSet.empty).val = [c] := by
    simp [ConnSet.insert, ConnSet.empty]
  have herase : (ConnSet.erase c (ConnSet.insert c ConnSet.empty)).val = [] := by
    simp [ConnSet.erase, hval]
  simp [RoomManager.leave, hjoin, herase, List.isEmpty_iff]

/-- Witness for C5 at a concrete reachable state: after "A" joins and leaves
"lobby", the lobby entry is gone and cycling "B" through it leaves none. -/
theorem empty_room_entry_deleted_witness :
    ((RoomManager.empty.join "A" "lobby").leave "A" "lobby").rooms "lobby" = none
    ∧ ((RoomManager.empty.join "A" "lobby").leave "A" "lobby").get_members "lobby" = []
    ∧ (((((RoomManager.empty.join "A" "lobby").leave "A" "lobby").join "B" "lobby").leave "B" "lobby").rooms "lobby" = none) :=
  empty_room_entry_deleted ((RoomManager.empty.join "A" "lobby").leave "A" "lobby")
    (RoomManager.Reachable.leave "A" "lobby"
      (RoomManager.Reachable.join "A" "lobby" RoomManager.Reachable.empty))
    "lobby" "B" (by decide)

/-- Association-list embedding of a string-keyed hash map's insert
(`DashMap::insert`, JS `Map.set`): replace the entry under the key when
present, append otherwise. -/
def mapSet {α : Type} : List (String × α) → String → α → List (String × α)
  | [], k, v => [(k, v)]
  | (k', v') :: rest, k, v =>
      if k' = k then (k, v) :: rest else (k', v') :: mapSet rest k v

/-- Association-list embedding of a string-keyed hash map's lookup. -/
def mapGet {α : Type} (l : List (String × α)) (k : String) : Option α :=
  (l.find? (fun e => e.1 == k)).map (fun e => e.2)

/-- Number of entries stored under a key (an observation on the map model). -/
def mapCountKey {α : Type} (l : List (String × α)) (k : String) : Nat :=
  (l.filter (fun e => e.1 == k)).length

/-- Embedding of the `Connection` record (connection_manager.rs). The
transport fields (`socket`, `tx`, `rx`) are I/O channels and are not part of
the state model; `rooms` is the record's own room set, created empty by
`Connection::new`. -/
structure Connection where
  id : ConnId
  user_id : Option String
  rooms : ConnSet
deriving DecidableEq

/-- Embedding of `Connection::new(conn_id, socket, user)`: a fresh record
with no rooms. -/
def Connection.new (conn_id : ConnId) (user : Option String) : Connection :=
  { id := conn_id, user_id := user, rooms := ConnSet.empty }

/-- Embedding of `ConnectionManager`: the connection map
(`DashMap<String, Connection>`, kept as an insertion-ordered association
list) together with its `RoomManager`. -/
structure ConnectionManager where
  connections : List (ConnId × Connection)
  room_manager : RoomManager

def ConnectionManager.empty : ConnectionManager :=
  { connections := [], room_manager := RoomManager.empty }

/-- Embedding of `ConnectionManager::add`: inserts the connection into the
map. The function performs no per-identity limit check and its type admits
no failure. -/
def ConnectionManager.add (cm : ConnectionManager) (conn_id : ConnId) (connection : Connection) : ConnectionManager :=
  { cm with connections := mapSet cm.connections conn_id connection }

/-- Embedding of `ConnectionManager::remove`: drop the map entry and, for
every room listed in the removed record's own `rooms` field, leave that
room. The Rust function returns `()`. -/
def ConnectionManager.remove (cm : ConnectionManager) (conn_id : ConnId) : ConnectionManager :=
  match mapGet cm.connections conn_id with
  | none => cm
  | some conn =>
      { connections := cm.connections.eraseP (fun e => e.1 == conn_id),
        room_manager :=
          conn.rooms.val.foldl (fun rm room => rm.leave conn_id room) cm.room_manager }

/-- Embedding of `ConnectionManager::send_to`: delivers the message over the
connection's channel when the connection still exists, and silently does
nothing otherwise. The result lists the connection ids actually sent to. -/
def ConnectionManager.send_to (cm : ConnectionManager) (conn_id : ConnId) : List ConnId :=
  match mapGet cm.connections conn_id with
  | some _ => [conn_id]
  | none => []

/-- Loop body of `ConnectionManager::broadcast_to_room`: for each member id,
skip it when it equals the (single, optional) `except` id, otherwise send. -/
def broadcastLoop (cm : ConnectionManager) (except : Option ConnId) : List ConnId → List ConnId
  | [] => []
  | conn_id :: rest =>
      if some conn_id = except then broadcastLoop cm except rest
      else cm.send_to conn_id ++ broadcastLoop cm except rest

/-- Embedding of `ConnectionManager::broadcast_to_room(room, message, except:
Option<&str>)`: fans the message out over the room's current members,
skipping the single optional excepted id. Returns the recipients. -/
def ConnectionManager.broadcast_to_room (cm : ConnectionManager) (room : RoomId) (except : Option ConnId) : List ConnId :=
  broadcastLoop cm except (cm.room_manager.get_members room)

/-- Room operation kinds of `WebSocketRoomOperation` (JOIN / LEAVE). -/
inductive RoomOpType where
  | join
  | leave
deriving DecidableEq

/-- Embedding of `MessageRouter::handle_room_operation`: applies the
operation to the room manager. The removed connection record's own `rooms`
field is not touched here — no code path in the analysed source updates it. -/
def ConnectionManager.handle_room_operation (cm : ConnectionManager) (op : RoomOpType) (conn_id : ConnId) (room : RoomId) : ConnectionManager :=
  match op with
  | .join => { cm with room_manager := cm.room_manager.join conn_id room }
  | .leave => { cm with room_manager := cm.room_manager.leave conn_id room }

/-- Embedding of the `Target::Room` branch of `MessageRouter::route_outbound`:
the repeated `except_connections` field is collapsed to its first element
(`except_connections[0]`) before calling `broadcast_to_room`. Returns the
recipients. -/
def route_outbound_room (cm : ConnectionManager) (room : RoomId) (except_connections : List ConnId) : List ConnId :=
  let except : Option ConnId :=
    match except_connections with
    | [] => none
    | c :: _ => some c
  cm.broadcast_to_room room except

/-- Embedding of `WebSocketConfig` (registry/service.rs). -/
structure WebSocketConfig where
  enabled : Bool
  path : String
  heartbeat_interval_ms : Nat
  max_connections_per_user : Nat
  max_message_size_bytes : Nat
deriving DecidableEq

/-- Number of live connections held by a given user identity (an observation
on the connection map). -/
def ConnectionManager.connectionsForUser (cm : ConnectionManager) (user : String) : Nat :=
  (cm.connections.filter (fun e => e.2.user_id == some user)).length

/-- Gateway state with connections "A", "B", "C" admitted and all three
members of room "lobby" (via room operations), used to exercise routing. -/
def lobbyState : ConnectionManager :=
  ((((((ConnectionManager.empty.add "A" (Connection.new "A" none)).add "B"
      (Connection.new "B" none)).add "C"
      (Connection.new "C" none)).handle_room_operation .join "A" "lobby").handle_room_operation
      .join "B" "lobby").handle_room_operation .join "C" "lobby")

/-- C2 fails on the code: a room dispatch whose except set is
["A", "B"] still delivers the event to "B" (exactly once), because
`route_outbound` forwards only `except_connections[0]` to
`broadcast_to_room`, which accepts a single optional exception. -/
theorem room_broadcast_ignores_second_exception :
    "B" ∈ ["A", "B"]
    ∧ "B" ∈ lobbyState.room_manager.get_members "lobby"
    ∧ (route_outbound_room lobbyState "lobby" ["A", "B"]).count "B" = 1
    ∧ (route_outbound_room lobbyState "lobby" ["A", "B"]).count "A" = 0 := by
  decide

/-- C4 fails on the code: after "c1" is admitted, joins "lobby" through a
room operation, and is removed, the room's member set still contains "c1"
(the record's own `rooms` field — the only thing `remove` consults — was
never updated), and `remove` has no room-set return value to inspect. -/
theorem remove_leaves_stale_room_membership :
    (mapGet ((((ConnectionManager.empty.add "c1" (Connection.new "c1" (some "alice"))).handle_room_operation
        .join "c1" "lobby").remove "c1").connections) "c1" = none)
    ∧ ((((ConnectionManager.empty.add "c1" (Connection.new "c1" (some "alice"))).handle_room_operation
        .join "c1" "lobby").remove "c1").room_manager.get_members "lobby" = ["c1"]) := by
  decide

/-- C7 fails on the code: with `max_connections_per_user = 2`, a third
`add` for the same identity succeeds — `ConnectionManager::add` inserts
unconditionally, never consulting the configured limit, and its type admits
no `TooManyConnections` failure. -/
theorem third_connection_for_identity_admitted :
    (WebSocketConfig.mk true "/ws/chat" 30000 2 1048576).max_connections_per_user = 2
    ∧ ConnectionManager.connectionsForUser
        (((ConnectionManager.empty.add "c1" (Connection.new "c1" (some "alice"))).add "c2"
          (Connection.new "c2" (some "alice"))).add "c3" (Connection.new "c3" (some "alice")))
        "alice" = 3
    ∧ (mapGet (((ConnectionManager.empty.add "c1" (Connection.new "c1" (some "alice"))).add "c2"
          (Connection.new "c2" (some "alice"))).add "c3"
          (Connection.new "c3" (some "alice"))).connections "c3").isSome = true := by
  decide

/-- Embedding of the authenticated user attached to an inbound message
(`message.user`), carrying its role set. -/
structure UserContext where
  roles : List String
deriving DecidableEq

/-- Embedding of the resolved per-handler options stored by
`WebSocketManager.on` (`auth`, `roles`, `description`, `timeoutMs`,
`validate`; the schema itself is opaque, so only its presence is kept). -/
structure WebSocketHandlerOptions where
  auth : Bool
  roles : List String
  description : String
  timeoutMs : Nat
  hasValidate : Bool
deriving DecidableEq

/-- Defaults merged into the options by `on()`:
`{ auth: false, roles: [], description: "", timeoutMs: 30000, validate: undefined }`. -/
def WebSocketHandlerOptions.defaults : WebSocketHandlerOptions :=
  { auth := false, roles := [], description := "", timeoutMs := 30000, hasValidate := false }

/-- Behaviour model of an opaque registered handler function: whether invoking
it throws, and how long its asynchronous work takes in milliseconds. -/
structure HandlerBehavior where
  throws : Bool
  durationMs : Nat
deriving DecidableEq

/-- Embedding of `RegisteredWebSocketHandler` (`{ name, handler, options }`). -/
structure RegisteredWebSocketHandler where
  name : String
  handler : HandlerBehavior
  options : WebSocketHandlerOptions
deriving DecidableEq

/-- Embedding of the SDK `WebSocketManager`'s registry:
`private handlers = new Map<string, RegisteredWebSocketHandler>()`. -/
structure WebSocketManager where
  handlers : List (String × RegisteredWebSocketHandler)

def WebSocketManager.empty : WebSocketManager := { handlers := [] }

/-- Embedding of `WebSocketManager.on(name, options, handler)`: stores the
registration with `this.handlers.set(name, { name, handler, options })`;
`options` is the already-resolved record (defaults merged). -/
def WebSocketManager.on (mgr : WebSocketManager) (name : String) (options : WebSocketHandlerOptions) (handler : HandlerBehavior) : WebSocketManager :=
  { handlers := mapSet mgr.handlers name { name := name, handler := handler, options := options } }

/-- Behaviour model of one opaque middleware function in the chain: whether
it throws, and whether it invokes its `next` continuation. -/
structure MiddlewareBehavior where
  throws : Bool
  callsNext : Bool
deriving DecidableEq

/-- Model of the raw inbound payload bytes: their length, and whether
`JSON.parse` succeeds on them (the JSON grammar itself is opaque). -/
structure InboundPayload where
  byteLength : Nat
  parsesAsJson : Bool
deriving DecidableEq

/-- Embedding of the protobuf `WebSocketInbound` message as seen by
`handleInboundMessage` (`socketId`, `messageType`, `payload`,
`correlationId`, `user`). -/
structure WebSocketInboundMessage where
  socketId : String
  messageType : String
  payload : InboundPayload
  correlationId : Option String
  user : Option UserContext
deriving DecidableEq

/-- Error envelope of the wire protocol (`WebSocketResponse` with the error
variant): correlation id plus `{ code, type, message }`. The analysed
`handleInboundMessage` never constructs one. -/
structure ErrorEnvelope where
  correlationId : String
  code : Nat
  errType : String
  message : String
deriving DecidableEq

/-- Observable outcome of one `handleInboundMessage` invocation. -/
inductive InboundOutcome where
  /-- no handler registered for the message type (path not shown in the
  analysed source). -/
  | noHandler
  /-- the function returned without sending anything (it only logged). -/
  | silentDrop
  /-- an uncaught exception escaped the function, aborting processing of the
  message. -/
  | exceptionEscaped
  /-- a middleware did not invoke `next`; the handler never ran. -/
  | chainHalted
  /-- the handler ran to completion; `elapsedMs` is the full time the router
  waited on it. -/
  | handlerCompleted (elapsedMs : Nat)
deriving DecidableEq

/-- Embedding of `executeNext` (WEBSOCKET-CODE-ANALYSIS.md L766-774): walk
the middleware chain, then run the handler; neither step is wrapped in a
try-catch efficacious here, and no timeout wraps the handler, so the router
waits for the handler's full duration. -/
def executeChain (middlewares : List MiddlewareBehavior) (handler : HandlerBehavior) : InboundOutcome :=
  match middlewares with
  | [] =>
      if handler.throws then .exceptionEscaped
      else .handlerCompleted handler.durationMs
  | mw :: rest =>
      if mw.throws then .exceptionEscaped
      else if mw.callsNext then executeChain rest handler
      else .chainHalted

/-- Embedding of the SDK `handleInboundMessage` as quoted in
WEBSOCKET-CODE-ANALYSIS.md: resolve the handler; when `auth` is required and
no user is attached, log a warning and return (nothing sent); when roles are
declared and an attached user has none of them, log and return (nothing
sent); then `JSON.parse` the payload with no size-limit check and no
try-catch (a parse failure escapes as an exception); the stored `validate`
schema is never consulted; finally run middlewares and handler via
`executeNext`. The second component lists the envelopes sent back to the
client — empty on every path of the quoted code. -/
def handleInboundMessage (mgr : WebSocketManager) (middlewares : List MiddlewareBehavior) (message : WebSocketInboundMessage) : InboundOutcome × List ErrorEnvelope :=
  match mapGet mgr.handlers message.messageType with
  | none => (.noHandler, [])
  | some handler =>
      if handler.options.auth && message.user.isNone then (.silentDrop, [])
      else
        match message.user with
        | some user =>
            if !handler.options.roles.isEmpty
                && !(handler.options.roles.any (fun role => user.roles.contains role)) then
              (.silentDrop, [])
            else if !message.payload.parsesAsJson then (.exceptionEscaped, [])
            else (executeChain middlewares handler.handler, [])
        | none =>
            if !message.payload.parsesAsJson then (.exceptionEscaped, [])
            else (executeChain middlewares handler.handler, [])

/-- Registry holding one handler "chat.send" that requires authentication. -/
def authOnlyManager : WebSocketManager :=
  WebSocketManager.empty.on "chat.send"
    { WebSocketHandlerOptions.defaults with auth := true } ⟨false, 5⟩

/-- C1 fails on the code: an inbound "chat.send" carrying a correlation id
but no identity, hitting a handler registered with `auth: true`, is silently
dropped — no `Unauthorized` (nor any other) error envelope is sent back. -/
theorem unauthorized_message_silently_dropped :
    ((mapGet authOnlyManager.handlers "chat.send").map (fun h => h.options.auth) = some true)
    ∧ handleInboundMessage authOnlyManager []
        { socketId := "s1", messageType := "chat.send", payload := ⟨64, true⟩,
          correlationId := some "msg-124", user := none }
      = (.silentDrop, []) := by
  decide

/-- Registry holding one unauthenticated handler "chat.send". -/
def plainManager : WebSocketManager :=
  WebSocketManager.empty.on "chat.send" WebSocketHandlerOptions.defaults ⟨false, 5⟩

/-- C6 fails on the code: with `max_message_size_bytes = 1024`, a
2048-byte frame is never size-checked — when it fails to parse, the
`JSON.parse` exception escapes (no `MalformedPayload` envelope, processing
of the message aborts), and when it does parse, the handler simply runs;
`handleInboundMessage` does not even take the size configuration. -/
theorem oversized_frame_not_rejected :
    ((WebSocketConfig.mk true "/ws/chat" 30000 10 1024).max_message_size_bytes = 1024
      ∧ 1024 < (2048 : Nat))
    ∧ handleInboundMessage plainManager []
        { socketId := "s1", messageType := "chat.send", payload := ⟨2048, false⟩,
          correlationId := some "msg-1", user := none }
      = (.exceptionEscaped, [])
    ∧ handleInboundMessage plainManager []
        { socketId := "s1", messageType := "chat.send", payload := ⟨2048, true⟩,
          correlationId := some "msg-2", user := none }
      = (.handlerCompleted 5, []) := by
  decide

/-- Registry holding one handler "slow.op" with `timeoutMs: 50` whose work
takes 200 ms. -/
def slowHandlerManager : WebSocketManager :=
  WebSocketManager.empty.on "slow.op"
    { WebSocketHandlerOptions.defaults with timeoutMs := 50 } ⟨false, 200⟩

/-- C8 fails on the code: the handler's stored `timeoutMs = 50` is never
used — the router waits the handler's full 200 ms and completes with its
result, and no `HandlerTimeout` (nor any) error envelope is produced. -/
theorem handler_timeout_not_enforced :
    ((mapGet slowHandlerManager.handlers "slow.op").map (fun h => h.options.timeoutMs) = some 50)
    ∧ handleInboundMessage slowHandlerManager []
        { socketId := "s1", messageType := "slow.op", payload := ⟨16, true⟩,
          correlationId := some "msg-7", user := none }
      = (.handlerCompleted 200, []) := by
  decide

theorem mapGet_mapSet_self {α : Type} (l : List (String × α)) (k : String) (v : α) :
    mapGet (mapSet l k v) k = some v := by
  induction l with
  | nil => simp [mapSet, mapGet, List.find?]
  | cons e rest ih =>
      by_cases hk : e.1 = k
      · simp [mapSet, hk, mapGet, List.find?]
      · have hb : (e.1 == k) = false := by simp [hk]
        simp only [mapSet]
        rw [if_neg hk]
        simpa [mapGet, List.find?, hb] using ih

theorem mapCountKey_mapSet {α : Type} (l : List (String × α)) (k : String) (v : α) :
    mapCountKey (mapSet l k v) k = if mapCountKey l k = 0 then 1 else mapCountKey l k := by
  induction l with
  | nil => simp [mapSet, mapCountKey]
  | cons e rest ih =>
      by_cases hk : e.1 = k
      · simp [mapSet, hk, mapCountKey, List.filter]
      · have hb : (e.1 == k) = false := by simp [hk]
        simp only [mapSet]
        rw [if_neg hk]
        simp only [mapCountKey, List.filter_cons, hb, cond_false, Bool.false_eq_true,
          if_false] at ih ⊢
        exact ih

theorem length_mapSet_of_countKey_pos {α : Type} (l : List (String × α)) (k : String) (v : α)
    (h : 0 < mapCountKey l k) : (mapSet l k v).length = l.length := by
  induction l with
  | nil => simp [mapCountKey] at h
  | cons e rest ih =>
      by_cases hk : e.1 = k
      · simp [mapSet, hk]
      · have hb : (e.1 == k) = false := by simp [hk]
        simp only [mapSet]
        rw [if_neg hk]
        simp only [List.length_cons]
        have h' : 0 < mapCountKey rest k := by
          simpa [mapCountKey, List.filter, hb] using h
        rw [ih h']

theorem mapCountKey_mapSet_pos {α : Type} (l : List (String × α)) (k : String) (v : α) :
    0 < mapCountKey (mapSet l k v) k := by
  rw [mapCountKey_mapSet]
  split <;> omega

/-- C9: registering a handler a second time under the same name replaces the
prior registration — the lookup yields the most recent one, exactly one
entry for that name remains, and the registry does not grow (given the map
invariant that a name occurs at most once). -/
theorem reregistration_replaces (mgr : WebSocketManager) (n : String)
    (o1 o2 : WebSocketHandlerOptions) (h1 h2 : HandlerBehavior)
    (hm : mapCountKey mgr.handlers n ≤ 1) :
    mapGet ((mgr.on n o1 h1).on n o2 h2).handlers n
        = some { name := n, handler := h2, options := o2 }
    ∧ mapCountKey ((mgr.on n o1 h1).on n o2 h2).handlers n = 1
    ∧ ((mgr.on n o1 h1).on n o2 h2).handlers.length = (mgr.on n o1 h1).handlers.length := by
  refine ⟨mapGet_mapSet_self _ _ _, ?_, ?_⟩
  · rw [WebSocketManager.on, WebSocketManager.on]
    rw [mapCountKey_mapSet, mapCountKey_mapSet]
    rcases Nat.eq_zero_or_pos (mapCountKey mgr.handlers n) with h0 | hp
    · simp [h0]
    · have h1' : mapCountKey mgr.handlers n = 1 := Nat.le_antisymm hm hp
      simp [h1']
  · exact length_mapSet_of_countKey_pos _ _ _ (mapCountKey_mapSet_pos _ _ _)

/-- Witness for C9: registering "foo" twice on an empty registry, with
different options, leaves exactly the second registration in effect. -/
theorem reregistration_replaces_witness :
    mapGet ((WebSocketManager.empty.on "foo" WebSocketHandlerOptions.defaults ⟨false, 1⟩).on
        "foo" { WebSocketHandlerOptions.defaults with auth := true } ⟨false, 2⟩).handlers "foo"
      = some { name := "foo", handler := ⟨false, 2⟩,
               options := { WebSocketHandlerOptions.defaults with auth := true } }
    ∧ mapCountKey ((WebSocketManager.empty.on "foo" WebSocketHandlerOptions.defaults ⟨false, 1⟩).on
        "foo" { WebSocketHandlerOptions.defaults with auth := true } ⟨false, 2⟩).handlers "foo" = 1
    ∧ ((WebSocketManager.empty.on "foo" WebSocketHandlerOptions.defaults ⟨false, 1⟩).on
        "foo" { WebSocketHandlerOptions.defaults with auth := true } ⟨false, 2⟩).handlers.length
      = (WebSocketManager.empty.on "foo" WebSocketHandlerOptions.defaults ⟨false, 1⟩).handlers.length :=
  reregistration_replaces WebSocketManager.empty "foo" WebSocketHandlerOptions.defaults
    { WebSocketHandlerOptions.defaults with auth := true } ⟨false, 1⟩ ⟨false, 2⟩ (by decide)

end WsGateway
